import Mathlib

/-!
NAL unit headers and buffers (`include/rtc/nalunit.hpp`)

A shallow embedding of the one-byte NAL header, the one-byte FU header and the
`NalUnit` byte buffer of `include/rtc/nalunit.hpp`.

* A `uint8_t` is a natural number below `256`; every store into the `_first`
  member is reduced `% 256`, every function returning `uint8_t` likewise.
* C++ integral promotion makes `_first >> k`, `x & m`, `x | y` and
  `isSet << k` plain integer operations, so they are `>>>`, `&&&`, `|||` and
  `<<<` on `Nat`; a `bool` operand is promoted to `0` or `1` (`Bool.toNat`) and
  an integer returned as `bool` is `true` exactly when it is non-zero.
* `rtc::binary` is a `std::vector` of bytes: a `List Nat`.
* A failed `assert` is the result `none`.
-/

/-! ## Integer conversions -/

/-- Conversion of an integer to `bool`: non-zero is `true`. -/
def toBool (x : Nat) : Bool := x != 0

/-- Conversion of an integer to `uint8_t`. -/
def toUInt8 (x : Nat) : Nat := x % 256

/-! ## `struct NalUnitHeader` -/

namespace NalUnitHeader

/-- Source: `bool forbiddenBit() { return _first >> 7; }` -/
def forbiddenBit (_first : Nat) : Bool := toBool (_first >>> 7)

/-- Source: `uint8_t nri() { return _first >> 5 & 0x03; }` -/
def nri (_first : Nat) : Nat := toUInt8 (_first >>> 5 &&& 0x03)

/-- Source: `uint8_t unitType() { return _first & 0x1F; }` -/
def unitType (_first : Nat) : Nat := toUInt8 (_first &&& 0x1F)

/-- Source: `void setForbiddenBit(bool isSet) { _first = (_first & 0x7F) | (isSet << 7); }` -/
def setForbiddenBit (_first : Nat) (isSet : Bool) : Nat :=
  toUInt8 ((_first &&& 0x7F) ||| (isSet.toNat <<< 7))

/-- Source: `void setNRI(uint8_t nri) { _first = (_first & 0x9F) | ((nri & 0x03) << 5); }` -/
def setNRI (_first : Nat) (nri : Nat) : Nat :=
  toUInt8 ((_first &&& 0x9F) ||| ((nri &&& 0x03) <<< 5))

/-- Source: `void setUnitType(uint8_t type) { _first = (_first &0xE0) | (type & 0x1F); }` -/
def setUnitType (_first : Nat) (type : Nat) : Nat :=
  toUInt8 ((_first &&& 0xE0) ||| (type &&& 0x1F))

end NalUnitHeader

/-! ## `struct NalUnitFragmentHeader` -/

namespace NalUnitFragmentHeader

/-- Source: `bool isStart() { return _first >> 7; }` -/
def isStart (_first : Nat) : Bool := toBool (_first >>> 7)

/-- Source: `bool reservedBit6() { return (_first >> 6) & 0x01; }` -/
def reservedBit6 (_first : Nat) : Bool := toBool ((_first >>> 6) &&& 0x01)

/-- Source: `bool isEnd() { return (_first >> 5) & 0x01; }` -/
def isEnd (_first : Nat) : Bool := toBool ((_first >>> 5) &&& 0x01)

/-- Source: `uint8_t unitType() { return _first & 0x1F; }` -/
def unitType (_first : Nat) : Nat := toUInt8 (_first &&& 0x1F)

/-- Source: `void setStart(bool isSet) { _first = (_first & 0x7F) | (isSet << 7); }` -/
def setStart (_first : Nat) (isSet : Bool) : Nat :=
  toUInt8 ((_first &&& 0x7F) ||| (isSet.toNat <<< 7))

/-- Source: `void setEnd(bool isSet) { _first = (_first & 0xDF) | (isSet << 6); }` -/
def setEnd (_first : Nat) (isSet : Bool) : Nat :=
  toUInt8 ((_first &&& 0xDF) ||| (isSet.toNat <<< 6))

/-- Source: `void setReservedBit6(bool isSet) { _first = (_first & 0xBF) | (isSet << 5); }` -/
def setReservedBit6 (_first : Nat) (isSet : Bool) : Nat :=
  toUInt8 ((_first &&& 0xBF) ||| (isSet.toNat <<< 5))

/-- Source: `void setUnitType(uint8_t type) { _first = (_first &0xE0) | (type & 0x1F); }` -/
def setUnitType (_first : Nat) (type : Nat) : Nat :=
  toUInt8 ((_first &&& 0xE0) ||| (type &&& 0x1F))

end NalUnitFragmentHeader

/-! ## `struct NalUnit : rtc::binary` -/

/-- The buffer type `rtc::binary`, a `std::vector` of bytes. -/
abbrev binary := List Nat

/-- Every element of the buffer is a byte. -/
def binary.wellFormed (bs : binary) : Prop := ∀ x ∈ bs, x < 256

/-- Member `std::vector::erase(first, last)` on positions: drops the elements `[first, last)`. -/
def binary.erase (v : binary) (first last : Nat) : binary := v.take first ++ v.drop last

/-- Member `std::vector::insert(pos, first, last)`: inserts a byte range before position `pos`. -/
def binary.insert (v : binary) (pos : Nat) (range : binary) : binary :=
  v.take pos ++ range ++ v.drop pos

/-- A `NalUnit` is its inherited `rtc::binary`. -/
abbrev NalUnit := binary

namespace NalUnit

/-- Source: `NalUnit(Iterator begin_, Iterator end_): rtc::binary(begin_, end_)`: copies the range. -/
def ofRange (range : List Nat) : NalUnit := range

/-- Source: `NalUnitHeader * header() { assert(size() >= 1); return (NalUnitHeader *) data(); }`:
the byte the returned pointer designates, `none` when the assertion fails. -/
def header (u : NalUnit) : Option Nat :=
  if 1 ≤ u.length then u.get? 0 else none

/-- Stores `first` through the pointer returned by `header()`. -/
def storeHeader (u : NalUnit) (first : Nat) : Option NalUnit :=
  if 1 ≤ u.length then some (u.set 0 first) else none

/-- Source: `bool forbiddenBit() { return header()->forbiddenBit(); }` -/
def forbiddenBit (u : NalUnit) : Option Bool :=
  (header u).map NalUnitHeader.forbiddenBit

/-- Source: `uint8_t nri() { return header()->nri(); }` -/
def nri (u : NalUnit) : Option Nat :=
  (header u).map NalUnitHeader.nri

/-- Source: `uint8_t unitType() { return header()->unitType(); }` -/
def unitType (u : NalUnit) : Option Nat :=
  (header u).map NalUnitHeader.unitType

/-- Source: `rtc::binary payload() { assert(size() >= 1); return {begin() + 1, end()}; }` -/
def payload (u : NalUnit) : Option binary :=
  if 1 ≤ u.length then some (u.drop 1) else none

/-- Source: `void setForbiddenBit(bool isSet) { header()->setForbiddenBit(isSet); }` -/
def setForbiddenBit (u : NalUnit) (isSet : Bool) : Option NalUnit :=
  (header u).bind fun first => storeHeader u (NalUnitHeader.setForbiddenBit first isSet)

/-- Source: `void setNRI(uint8_t nri) { header()->setNRI(nri); }` -/
def setNRI (u : NalUnit) (nri : Nat) : Option NalUnit :=
  (header u).bind fun first => storeHeader u (NalUnitHeader.setNRI first nri)

/-- Source: `void setUnitType(uint8_t type) { header()->setUnitType(type); }` -/
def setUnitType (u : NalUnit) (type : Nat) : Option NalUnit :=
  (header u).bind fun first => storeHeader u (NalUnitHeader.setUnitType first type)

/-- The body of `setPayload`:
`assert(size() >= 1); erase(begin() + 1, end()); insert(end(), payload.begin(), payload.end());` -/
def setPayload (u : NalUnit) (payload : binary) : Option NalUnit :=
  if 1 ≤ u.length then
    let erased := binary.erase u 1 u.length
    some (binary.insert erased erased.length payload)
  else none

end NalUnit

/-! ## `NalUnit(size_t, bool)` -/

/-- Conversion of an integer to `size_t`, taken as 64 bits wide. -/
def toSizeT (x : Nat) : Nat := x % 2 ^ 64

namespace NalUnit

/-- Source: `NalUnit(size_t size, bool includingHeader = true):
rtc::binary(size + (includingHeader ? 0 : 1)) { }`. The sum is a `size_t`. The vector
constructor `rtc::binary(n)` throws `std::length_error` when `n` exceeds the vector's
`max_size()`, a `size_t` of the standard library taken here as a parameter: the result is
`none`. Otherwise it value-initialises `n` bytes, that is, to zero. -/
def ofSize (max_size : Nat) (size : Nat) (includingHeader : Bool) : Option NalUnit :=
  let count := toSizeT (size + (if includingHeader then 0 else 1))
  if count ≤ max_size then some (List.replicate count 0) else none

end NalUnit

/-! ## `struct NalUnitFragmentA : NalUnit` -/

/-- A `NalUnitFragmentA` is its inherited `NalUnit`. -/
abbrev NalUnitFragmentA := NalUnit

namespace NalUnitFragmentA

/-- Source: `enum class FragmentType { Start, Middle, End };` -/
inductive FragmentType where
  | Start
  | Middle
  | End
  deriving DecidableEq, Repr

/-- Source: `const uint8_t nal_type_fu_A = 28;` -/
def nal_type_fu_A : Nat := 28

/-- Source: `NalUnitHeader * fragmentIndicator() { return (NalUnitHeader *) data(); }`:
the byte the pointer designates. There is no assertion; `none` stands for the access
outside the buffer. -/
def fragmentIndicator (g : NalUnitFragmentA) : Option Nat := g.get? 0

/-- Source: `NalUnitFragmentHeader * fragmentHeader() {
return (NalUnitFragmentHeader *) fragmentIndicator() + 1; }`: the byte after the indicator.
There is no assertion; `none` stands for the access outside the buffer. -/
def fragmentHeader (g : NalUnitFragmentA) : Option Nat := g.get? (0 + 1)

/-- Stores `first` through the pointer returned by `fragmentHeader()`. -/
def storeFragmentHeader (g : NalUnitFragmentA) (first : Nat) : Option NalUnitFragmentA :=
  if 1 < g.length then some (g.set (0 + 1) first) else none

/-- Source: `uint8_t unitType() { return fragmentHeader()->unitType(); }` -/
def unitType (g : NalUnitFragmentA) : Option Nat :=
  (fragmentHeader g).map NalUnitFragmentHeader.unitType

/-- Source: `rtc::binary payload() { assert(size() >= 2); return {begin() + 2, end()}; }` -/
def payload (g : NalUnitFragmentA) : Option binary :=
  if 2 ≤ g.length then some (g.drop 2) else none

/-- The body of `type()`:
`if(fragmentHeader()->isStart()) { return FragmentType::Start; }
else if(fragmentHeader()->isEnd()) { return FragmentType::End; }
else { return FragmentType::Middle; }` -/
def type (g : NalUnitFragmentA) : Option FragmentType :=
  (fragmentHeader g).map fun first =>
    if NalUnitFragmentHeader.isStart first then FragmentType.Start
    else if NalUnitFragmentHeader.isEnd first then FragmentType.End
    else FragmentType.Middle

/-- Source: `void setUnitType(uint8_t type) { fragmentHeader()->setUnitType(type); }` -/
def setUnitType (g : NalUnitFragmentA) (type : Nat) : Option NalUnitFragmentA :=
  (fragmentHeader g).bind fun first =>
    storeFragmentHeader g (NalUnitFragmentHeader.setUnitType first type)

/-- The body of `setPayload`:
`assert(size() >= 2); erase(begin() + 2, end()); insert(end(), payload.begin(), payload.end());` -/
def setPayload (g : NalUnitFragmentA) (payload : binary) : Option NalUnitFragmentA :=
  if 2 ≤ g.length then
    let erased := binary.erase g 2 g.length
    some (binary.insert erased erased.length payload)
  else none

/-- Modelled from the spec: the FU header byte that the constructor writes, the constructor
being only declared in the header. The spec (4.4): unitType is the original unit's type and
the start/end flags follow the tag, Start giving isStart = true only, End giving isEnd = true
only, Middle giving neither. The spec (3) places isStart at bit 7, reservedBit6 at bit 6,
isEnd at bit 5 and unitType at bits 4-0, which are the bits the getters `isStart()`,
`reservedBit6()`, `isEnd()` and `unitType()` read. -/
def fragmentHeaderByte (type : FragmentType) (unitType : Nat) : Nat :=
  128 * (decide (type = FragmentType.Start)).toNat
    + 32 * (decide (type = FragmentType.End)).toNat
    + unitType % 32

/-- Modelled from the spec: the constructor
`NalUnitFragmentA(FragmentType type, bool forbiddenBit, uint8_t nri, uint8_t unitType,
rtc::binary data)`, which the header only declares. The spec (4.4): a unit with a 2-byte
header sized to hold the payload; the indicator byte is a NAL header with unit type 28 and
the caller's forbiddenBit and nri, written from the zero byte; the FU header carries the
original unit type and the start/end flags of the tag; the payload follows. -/
def mk (type : FragmentType) (forbiddenBit : Bool) (nri : Nat) (unitType : Nat)
    (data : binary) : NalUnitFragmentA :=
  let indicator := NalUnitHeader.setUnitType
    (NalUnitHeader.setNRI (NalUnitHeader.setForbiddenBit 0 forbiddenBit) nri) nal_type_fu_A
  let fuHeader := fragmentHeaderByte type unitType
  indicator :: fuHeader :: data

/-- Modelled from the spec: the tag of slice `i` of `n` (4.4, step 4): Start for slice 0,
End for slice `n - 1`, Middle for all others. -/
def sliceType (i n : Nat) : FragmentType :=
  if i = 0 then FragmentType.Start
  else if i + 1 = n then FragmentType.End
  else FragmentType.Middle

/-- Modelled from the spec: slice `i` of the payload (4.4, step 3): contiguous,
non-overlapping, in the original order, each of at most `maxPayload` bytes. Every slice
but the last is full, as in the spec's scenario (2500 bytes in slices of 1098, 1098, 304). -/
def slice (payload : binary) (maxPayload i : Nat) : binary :=
  (payload.drop (i * maxPayload)).take maxPayload

/-- Modelled from the spec: `static fragmentsFrom(NalUnit nalu, uint16_t maximumFragmentSize)`,
which the header only declares. The spec (4.4): `payload = nalu.payload()`,
`maxPayload = maximumFragmentSize - 2`, `n = ceil(len(payload) / maxPayload)`; the payload
is cut into `n` slices and one fragment is emitted per slice, tagged by position, each
with the forbiddenBit, nri and unitType of the source unit. A `maximumFragmentSize` that
leaves no room for a payload byte and an empty payload are contract violations (4.4, 7),
as is an empty unit: `none`. -/
def fragmentsFrom (nalu : NalUnit) (maximumFragmentSize : Nat) :
    Option (List NalUnitFragmentA) :=
  match NalUnit.payload nalu, NalUnit.forbiddenBit nalu, NalUnit.nri nalu,
    NalUnit.unitType nalu with
  | some payload, some f, some nri, some unitType =>
    if maximumFragmentSize ≤ 2 ∨ payload = [] then none
    else
      let maxPayload := maximumFragmentSize - 2
      let n := (payload.length + maxPayload - 1) / maxPayload
      some ((List.range n).map fun i =>
        mk (sliceType i n) f nri unitType (slice payload maxPayload i))
  | _, _, _, _ => none

end NalUnitFragmentA

/-! ## `class NalUnits : std::vector<NalUnit>` -/

/-- The collection `NalUnits` is its inherited `std::vector<NalUnit>`. -/
abbrev NalUnits := List NalUnit

namespace NalUnits

/-- Source: `static const uint16_t defaultMaximumFragmentSize = 1100;` -/
def defaultMaximumFragmentSize : Nat := 1100

/-- Modelled from the spec: the loop of `generateFragments`, which the header only declares.
The spec (4.5): for each unit in order, a unit with `size() ≤ maximumFragmentSize`
has its raw bytes appended to the output list; any other unit is handed to
`fragmentsFrom` and the raw bytes of each fragment are appended in order. -/
def generateFragmentsLoop (maximumFragmentSize : Nat) :
    List NalUnit → List binary → Option (List binary)
  | [], result => some result
  | nalu :: rest, result =>
    if nalu.length ≤ maximumFragmentSize then
      generateFragmentsLoop maximumFragmentSize rest (result ++ [nalu])
    else
      match NalUnitFragmentA.fragmentsFrom nalu maximumFragmentSize with
      | none => none
      | some fragments => generateFragmentsLoop maximumFragmentSize rest (result ++ fragments)

/-- Modelled from the spec: `generateFragments(uint16_t maximumFragmentSize)` (4.5), the loop
started on the empty output list. -/
def generateFragments (units : NalUnits) (maximumFragmentSize : Nat) : Option (List binary) :=
  generateFragmentsLoop maximumFragmentSize units []

end NalUnits

/-! ## Arithmetic reading of the masks -/

set_option maxRecDepth 1000000

theorem and_0x03_eq_mod (n : Nat) : n &&& 0x03 = n % 4 :=
  Nat.and_pow_two_sub_one_eq_mod n 2

theorem and_0x1F_eq_mod (n : Nat) : n &&& 0x1F = n % 32 :=
  Nat.and_pow_two_sub_one_eq_mod n 5

theorem toUInt8_lt (x : Nat) : toUInt8 x < 256 :=
  Nat.mod_lt x (by decide)

theorem testBit_byte_high {x i : Nat} (hx : x < 256) (hi : 8 ≤ i) : x.testBit i = false := by
  apply Nat.testBit_lt_two_pow
  calc x < 2 ^ 8 := hx
    _ ≤ 2 ^ i := Nat.pow_le_pow_right (by decide) hi

theorem testBit_of_mod_eq {x y j i : Nat} (h : x % 2 ^ j = y % 2 ^ j) (hi : i < j) :
    x.testBit i = y.testBit i := by
  have hx := Nat.testBit_mod_two_pow x j i
  have hy := Nat.testBit_mod_two_pow y j i
  rw [h, hy] at hx
  simpa [hi] using hx.symm

theorem testBit_of_div_eq {x y j i : Nat} (h : x / 2 ^ j = y / 2 ^ j) (hi : j ≤ i) :
    x.testBit i = y.testBit i := by
  obtain ⟨k, rfl⟩ := Nat.exists_eq_add_of_le hi
  rw [← Nat.testBit_shiftRight, ← Nat.testBit_shiftRight, Nat.shiftRight_eq_div_pow,
    Nat.shiftRight_eq_div_pow, h]

/-! ## NAL header: round trip, isolation, layout -/

namespace NalUnitHeader

theorem setNRI_mod (b n : Nat) : setNRI b n = setNRI b (n % 4) := by
  unfold setNRI
  rw [and_0x03_eq_mod, and_0x03_eq_mod, Nat.mod_mod]

theorem nal_setUnitType_mod (b t : Nat) : setUnitType b t = setUnitType b (t % 32) := by
  unfold setUnitType
  rw [and_0x1F_eq_mod, and_0x1F_eq_mod, Nat.mod_mod]

theorem nal_round_trip_bytes : ∀ b, b < 256 →
    (∀ f : Bool, forbiddenBit (setForbiddenBit b f) = f) ∧
    (∀ m, m < 4 → nri (setNRI b m) = m) ∧
    (∀ m, m < 32 → unitType (setUnitType b m) = m) := by
  decide

/-- C1. For every header byte `b`, every bool `f` and all values `n`, `t` (the 8-bit ones
included): after `setForbiddenBit(f)` the getter `forbiddenBit()` returns `f`, after
`setNRI(n)` the getter `nri()` returns `n mod 4`, after `setUnitType(t)` the getter
`unitType()` returns `t mod 32`. The setters are total: each returns a header byte,
whatever the argument. -/
theorem nal_set_get_round_trip (b : Nat) (hb : b < 256) (f : Bool) (n t : Nat) :
    forbiddenBit (setForbiddenBit b f) = f ∧
    nri (setNRI b n) = n % 4 ∧
    unitType (setUnitType b t) = t % 32 ∧
    setForbiddenBit b f < 256 ∧ setNRI b n < 256 ∧ setUnitType b t < 256 := by
  obtain ⟨hf, hn, ht⟩ := nal_round_trip_bytes b hb
  refine ⟨hf f, ?_, ?_, toUInt8_lt _, toUInt8_lt _, toUInt8_lt _⟩
  · rw [setNRI_mod]
    exact hn (n % 4) (Nat.mod_lt n (by decide))
  · rw [nal_setUnitType_mod]
    exact ht (t % 32) (Nat.mod_lt t (by decide))

theorem nal_set_get_round_trip_witness :
    0xE5 < 256 ∧
    (forbiddenBit (setForbiddenBit 0xE5 false) = false ∧
     nri (setNRI 0xE5 6) = 6 % 4 ∧
     unitType (setUnitType 0xE5 0xFF) = 0xFF % 32 ∧
     setForbiddenBit 0xE5 false < 256 ∧ setNRI 0xE5 6 < 256 ∧ setUnitType 0xE5 0xFF < 256) :=
  ⟨by decide, nal_set_get_round_trip 0xE5 (by decide) false 6 0xFF⟩

theorem nal_other_bits_bytes : ∀ b, b < 256 →
    (∀ f : Bool, setForbiddenBit b f % 2 ^ 7 = b % 2 ^ 7) ∧
    (∀ m, m < 4 → setNRI b m % 2 ^ 5 = b % 2 ^ 5 ∧ setNRI b m / 2 ^ 7 = b / 2 ^ 7) ∧
    (∀ m, m < 32 → setUnitType b m / 2 ^ 5 = b / 2 ^ 5) := by
  decide

theorem nal_other_getters_bytes : ∀ b, b < 256 →
    (∀ f : Bool, nri (setForbiddenBit b f) = nri b ∧
      unitType (setForbiddenBit b f) = unitType b) ∧
    (∀ m, m < 4 → forbiddenBit (setNRI b m) = forbiddenBit b ∧
      unitType (setNRI b m) = unitType b) ∧
    (∀ m, m < 32 → forbiddenBit (setUnitType b m) = forbiddenBit b ∧
      nri (setUnitType b m) = nri b) := by
  decide

/-- C2. For every header byte `b` and every argument: `setForbiddenBit` leaves every bit
other than bit 7 as it was, `setNRI` every bit other than bits 6 and 5, `setUnitType`
every bit from bit 5 upwards; and after any one setter the two other getters return what
they returned on `b`. -/
theorem nal_setters_isolated (b : Nat) (hb : b < 256) (f : Bool) (n t i : Nat) :
    (i ≠ 7 → (setForbiddenBit b f).testBit i = b.testBit i) ∧
    (i ≠ 6 → i ≠ 5 → (setNRI b n).testBit i = b.testBit i) ∧
    (5 ≤ i → (setUnitType b t).testBit i = b.testBit i) ∧
    nri (setForbiddenBit b f) = nri b ∧
    unitType (setForbiddenBit b f) = unitType b ∧
    forbiddenBit (setNRI b n) = forbiddenBit b ∧
    unitType (setNRI b n) = unitType b ∧
    forbiddenBit (setUnitType b t) = forbiddenBit b ∧
    nri (setUnitType b t) = nri b := by
  obtain ⟨gf, gn, gt⟩ := nal_other_getters_bytes b hb
  have hn4 : n % 4 < 4 := Nat.mod_lt n (by decide)
  have ht32 : t % 32 < 32 := Nat.mod_lt t (by decide)
  rw [setNRI_mod b n, nal_setUnitType_mod b t]
  refine ⟨?_, ?_, ?_, (gf f).1, (gf f).2, (gn _ hn4).1, (gn _ hn4).2, (gt _ ht32).1,
    (gt _ ht32).2⟩
  · intro h7
    rcases Nat.lt_or_ge i 7 with hi | hi
    · exact testBit_of_mod_eq ((nal_other_bits_bytes b hb).1 f) hi
    · rw [testBit_byte_high hb (by omega)]
      exact testBit_byte_high (toUInt8_lt _) (by omega)
  · intro h6 h5
    rcases Nat.lt_or_ge i 5 with hi | hi
    · exact testBit_of_mod_eq ((nal_other_bits_bytes b hb).2.1 _ hn4).1 hi
    · exact testBit_of_div_eq ((nal_other_bits_bytes b hb).2.1 _ hn4).2 (by omega)
  · intro h5
    exact testBit_of_div_eq ((nal_other_bits_bytes b hb).2.2 _ ht32) h5

theorem nal_setters_isolated_witness :
    0x5A < 256 ∧
    ((6 ≠ 7 → (setForbiddenBit 0x5A true).testBit 6 = (0x5A).testBit 6) ∧
     (6 ≠ 6 → 6 ≠ 5 → (setNRI 0x5A 1).testBit 6 = (0x5A).testBit 6) ∧
     (5 ≤ 6 → (setUnitType 0x5A 0x27).testBit 6 = (0x5A).testBit 6) ∧
     nri (setForbiddenBit 0x5A true) = nri 0x5A ∧
     unitType (setForbiddenBit 0x5A true) = unitType 0x5A ∧
     forbiddenBit (setNRI 0x5A 1) = forbiddenBit 0x5A ∧
     unitType (setNRI 0x5A 1) = unitType 0x5A ∧
     forbiddenBit (setUnitType 0x5A 0x27) = forbiddenBit 0x5A ∧
     nri (setUnitType 0x5A 0x27) = nri 0x5A) :=
  ⟨by decide, nal_setters_isolated 0x5A (by decide) true 1 0x27 6⟩

theorem nal_layout_bytes : ∀ b, b < 256 →
    b = 128 * (forbiddenBit b).toNat + 32 * nri b + unitType b ∧
    nri b ≤ 3 ∧ unitType b ≤ 31 := by
  decide

theorem nal_compose_from_zero : ∀ f : Bool, ∀ n, n < 4 → ∀ t, t < 32 →
    setUnitType (setNRI (setForbiddenBit 0 f) n) t = 128 * f.toNat + 32 * n + t ∧
    setNRI (setUnitType (setForbiddenBit 0 f) t) n = 128 * f.toNat + 32 * n + t ∧
    setUnitType (setForbiddenBit (setNRI 0 n) f) t = 128 * f.toNat + 32 * n + t ∧
    setForbiddenBit (setUnitType (setNRI 0 n) t) f = 128 * f.toNat + 32 * n + t ∧
    setNRI (setForbiddenBit (setUnitType 0 t) f) n = 128 * f.toNat + 32 * n + t ∧
    setForbiddenBit (setNRI (setUnitType 0 t) n) f = 128 * f.toNat + 32 * n + t := by
  decide

/-- C6. The NAL header byte is laid out as F (1 bit), NRI (2 bits), Type (5 bits): every
byte `b` equals `128 * forbiddenBit() + 32 * nri() + unitType()` with `nri() ≤ 3` and
`unitType() ≤ 31`; and from the zero byte the three setters, applied in any of the six
orders, give the byte `128 * f + 32 * (n mod 4) + (t mod 32)`. -/
theorem nal_bit_layout (b : Nat) (hb : b < 256) (f : Bool) (n t : Nat) :
    (b = 128 * (forbiddenBit b).toNat + 32 * nri b + unitType b ∧
      nri b ≤ 3 ∧ unitType b ≤ 31) ∧
    setUnitType (setNRI (setForbiddenBit 0 f) n) t = 128 * f.toNat + 32 * (n % 4) + t % 32 ∧
    setNRI (setUnitType (setForbiddenBit 0 f) t) n = 128 * f.toNat + 32 * (n % 4) + t % 32 ∧
    setUnitType (setForbiddenBit (setNRI 0 n) f) t = 128 * f.toNat + 32 * (n % 4) + t % 32 ∧
    setForbiddenBit (setUnitType (setNRI 0 n) t) f = 128 * f.toNat + 32 * (n % 4) + t % 32 ∧
    setNRI (setForbiddenBit (setUnitType 0 t) f) n = 128 * f.toNat + 32 * (n % 4) + t % 32 ∧
    setForbiddenBit (setNRI (setUnitType 0 t) n) f = 128 * f.toNat + 32 * (n % 4) + t % 32 := by
  refine ⟨nal_layout_bytes b hb, ?_⟩
  simp only [setNRI_mod _ n, nal_setUnitType_mod _ t]
  exact nal_compose_from_zero f (n % 4) (Nat.mod_lt n (by decide)) (t % 32)
    (Nat.mod_lt t (by decide))

theorem nal_bit_layout_witness :
    0x65 < 256 ∧
    ((0x65 = 128 * (forbiddenBit 0x65).toNat + 32 * nri 0x65 + unitType 0x65 ∧
      nri 0x65 ≤ 3 ∧ unitType 0x65 ≤ 31) ∧
    setUnitType (setNRI (setForbiddenBit 0 true) 7) 37 = 128 * true.toNat + 32 * (7 % 4) + 37 % 32 ∧
    setNRI (setUnitType (setForbiddenBit 0 true) 37) 7 = 128 * true.toNat + 32 * (7 % 4) + 37 % 32 ∧
    setUnitType (setForbiddenBit (setNRI 0 7) true) 37 = 128 * true.toNat + 32 * (7 % 4) + 37 % 32 ∧
    setForbiddenBit (setUnitType (setNRI 0 7) 37) true = 128 * true.toNat + 32 * (7 % 4) + 37 % 32 ∧
    setNRI (setForbiddenBit (setUnitType 0 37) true) 7 = 128 * true.toNat + 32 * (7 % 4) + 37 % 32 ∧
    setForbiddenBit (setNRI (setUnitType 0 37) 7) true = 128 * true.toNat + 32 * (7 % 4) + 37 % 32) :=
  ⟨by decide, nal_bit_layout 0x65 (by decide) true 7 37⟩

end NalUnitHeader

/-! ## FU header: what the getters and the setters do -/

namespace NalUnitFragmentHeader

theorem fu_setUnitType_mod (b t : Nat) : setUnitType b t = setUnitType b (t % 32) := by
  unfold setUnitType
  rw [and_0x1F_eq_mod, and_0x1F_eq_mod, Nat.mod_mod]

/-- The getters read start from bit 7, reserved from bit 6, end from bit 5 and the unit
type from bits 4-0. -/
theorem fu_getter_layout_bytes : ∀ b, b < 256 →
    b = 128 * (isStart b).toNat + 64 * (reservedBit6 b).toNat + 32 * (isEnd b).toNat
      + unitType b := by
  decide

/-- The fields `isStart` and `unitType` read back what their setters wrote. -/
theorem fu_start_type_round_trip_bytes : ∀ b, b < 256 →
    (∀ v : Bool, isStart (setStart b v) = v) ∧
    (∀ m, m < 32 → unitType (setUnitType b m) = m) := by
  decide

/-- The store of `setEnd` clears bit 5 and ORs the argument into bit 6; the store of
`setReservedBit6` clears bit 6 and ORs the argument into bit 5. -/
theorem fu_end_reserved_stores_bytes : ∀ b, b < 256 → ∀ v : Bool,
    (isEnd (setEnd b v) = false ∧ reservedBit6 (setEnd b v) = (reservedBit6 b || v)) ∧
    (reservedBit6 (setReservedBit6 b v) = false ∧
      isEnd (setReservedBit6 b v) = (isEnd b || v)) := by
  decide

/-- C3 (defect in the source). On the zero FU header byte `setEnd(true)` stores `0x40`, after
which `isEnd()` returns `false`, not `true`; `setReservedBit6(true)` stores `0x20`, after
which `reservedBit6()` returns `false`, not `true`. -/
theorem fu_end_reserved_round_trip_fails :
    setEnd 0 true = 0x40 ∧ isEnd (setEnd 0 true) = false ∧
    setReservedBit6 0 true = 0x20 ∧ reservedBit6 (setReservedBit6 0 true) = false := by
  decide

/-- C4 (defect in the source). On the zero FU header byte `setEnd(true)` turns
`reservedBit6()` from `false` to `true`, and `setReservedBit6(true)` turns `isEnd()` from
`false` to `true`: each of the two setters alters the other field. -/
theorem fu_end_reserved_not_isolated :
    reservedBit6 0 = false ∧ reservedBit6 (setEnd 0 true) = true ∧
    isEnd 0 = false ∧ isEnd (setReservedBit6 0 true) = true := by
  decide

/-- C5 (defect in the source). On the byte `0x20` the getter `isEnd()` returns `true` and
`setEnd(true)` stores `0x40`; on the byte `0x40` the getter `reservedBit6()` returns `true`
and `setReservedBit6(true)` stores `0x20`: writing a field back changes the byte. -/
theorem fu_write_back_changes_byte :
    isEnd 0x20 = true ∧ setEnd 0x20 (isEnd 0x20) = 0x40 ∧
    reservedBit6 0x40 = true ∧ setReservedBit6 0x40 (reservedBit6 0x40) = 0x20 := by
  decide

/-- C7 (defect in the source). On the byte `0x40`, whose only set bit is bit 6, `isEnd()`
returns `false` and `reservedBit6()` returns `true`, so that
`128 * isStart() + 64 * isEnd() + 32 * reservedBit6() + unitType()` is `32`, not `0x40`. -/
theorem fu_getters_miss_wire_layout :
    (0x40 : Nat).testBit 6 = true ∧ isEnd 0x40 = false ∧ reservedBit6 0x40 = true ∧
    128 * (isStart 0x40).toNat + 64 * (isEnd 0x40).toNat + 32 * (reservedBit6 0x40).toNat
      + unitType 0x40 = 32 := by
  decide

/-- C8 (defect in the source). From the zero byte `setEnd(true)` stores `0x40`, not `0x20`,
and `setReservedBit6(true)` stores `0x20`, not `0x40`, although `isEnd()` reads bit 5 and
`reservedBit6()` reads bit 6. -/
theorem fu_setters_miss_data_model_layout :
    setEnd 0 true = 0x40 ∧ setEnd 0 true ≠ 0x20 ∧
    setReservedBit6 0 true = 0x20 ∧ setReservedBit6 0 true ≠ 0x40 ∧
    isEnd 0x20 = true ∧ reservedBit6 0x40 = true := by
  decide

end NalUnitFragmentHeader

/-! ## NalUnit: payload and parsing -/

namespace NalUnit

theorem nal_getters_read_fields : ∀ b, b < 256 →
    NalUnitHeader.forbiddenBit b = b.testBit 7 ∧
    NalUnitHeader.nri b = b / 2 ^ 5 % 2 ^ 2 ∧
    NalUnitHeader.unitType b = b % 2 ^ 5 := by
  decide

/-- C9. For every unit `u` of size at least 1 and every byte sequence `p` (the empty one
included), `u.setPayload(p)` completes, and on the resulting unit `payload()` returns
exactly `p`, byte 0 is the byte 0 of `u`, and `size()` is `1 + length(p)`. -/
theorem setPayload_payload_round_trip (u : NalUnit) (hu : 1 ≤ u.length) (p : binary) :
    ∃ v, setPayload u p = some v ∧
      payload v = some p ∧
      v.get? 0 = u.get? 0 ∧ header v = header u ∧ (header u).isSome = true ∧
      v.length = 1 + p.length := by
  cases u with
  | nil => simp at hu
  | cons first rest =>
    refine ⟨first :: p, ?_, ?_, ?_, ?_, ?_, ?_⟩
    · simp [setPayload, binary.erase, binary.insert]
    · simp [payload]
    · simp
    · simp [header]
    · simp [header]
    · simp [Nat.add_comm]

theorem setPayload_payload_round_trip_witness :
    1 ≤ ([0x65, 1, 2, 3] : NalUnit).length ∧
    ∃ v, setPayload [0x65, 1, 2, 3] [9, 8] = some v ∧
      payload v = some [9, 8] ∧
      v.get? 0 = ([0x65, 1, 2, 3] : NalUnit).get? 0 ∧
      header v = header [0x65, 1, 2, 3] ∧ (header [0x65, 1, 2, 3]).isSome = true ∧
      v.length = 1 + ([9, 8] : binary).length :=
  ⟨by decide, setPayload_payload_round_trip [0x65, 1, 2, 3] (by decide) [9, 8]⟩

/-- C10. For every non-empty byte sequence `bs`, the unit built from the range `bs` holds
exactly `bs`; its `forbiddenBit()`, `nri()` and `unitType()` are bit 7, bits 6-5 and bits
4-0 of `bs[0]`; its `payload()` is `bs` without its first byte, so that `bs[0]` followed by
`payload()` is `bs`; and `payload()` of a 1-byte unit is empty. -/
theorem ofRange_parses_raw_unit (bs : binary) (hne : bs ≠ []) (hwf : binary.wellFormed bs) :
    ofRange bs = bs ∧
    forbiddenBit (ofRange bs) = some ((bs.head hne).testBit 7) ∧
    nri (ofRange bs) = some (bs.head hne / 2 ^ 5 % 2 ^ 2) ∧
    unitType (ofRange bs) = some (bs.head hne % 2 ^ 5) ∧
    payload (ofRange bs) = some bs.tail ∧
    (∃ p, payload (ofRange bs) = some p ∧ bs.head hne :: p = bs) ∧
    (bs.length = 1 → payload (ofRange bs) = some []) := by
  cases bs with
  | nil => exact absurd rfl hne
  | cons first rest =>
    have hfirst : first < 256 := hwf first (List.mem_cons_self first rest)
    obtain ⟨hf, hn, ht⟩ := nal_getters_read_fields first hfirst
    refine ⟨rfl, ?_, ?_, ?_, ?_, ?_, ?_⟩
    · simp [forbiddenBit, header, ofRange, hf]
    · simp [nri, header, ofRange, hn]
    · simp [unitType, header, ofRange, ht]
    · simp [payload, ofRange]
    · exact ⟨rest, by simp [payload, ofRange], by simp⟩
    · intro hlen
      have hrest : rest = [] := by
        cases rest with
        | nil => rfl
        | cons _ _ => simp at hlen
      simp [payload, ofRange, hrest]

theorem ofRange_parses_raw_unit_witness :
    ([0x65, 0x88, 0x84] : binary) ≠ [] ∧ binary.wellFormed [0x65, 0x88, 0x84] ∧
    (ofRange [0x65, 0x88, 0x84] = [0x65, 0x88, 0x84] ∧
     forbiddenBit (ofRange [0x65, 0x88, 0x84]) = some ((0x65 : Nat).testBit 7) ∧
     nri (ofRange [0x65, 0x88, 0x84]) = some (0x65 / 2 ^ 5 % 2 ^ 2) ∧
     unitType (ofRange [0x65, 0x88, 0x84]) = some (0x65 % 2 ^ 5) ∧
     payload (ofRange [0x65, 0x88, 0x84]) = some [0x88, 0x84] ∧
     (∃ p, payload (ofRange [0x65, 0x88, 0x84]) = some p ∧ 0x65 :: p = [0x65, 0x88, 0x84]) ∧
     (([0x65, 0x88, 0x84] : binary).length = 1 →
       payload (ofRange [0x65, 0x88, 0x84]) = some [])) :=
  ⟨by decide, by unfold binary.wellFormed; decide,
    ofRange_parses_raw_unit [0x65, 0x88, 0x84] (by decide) (by unfold binary.wellFormed; decide)⟩

end NalUnit

/-! ## NalUnit: construction by size, assertions, header setters -/

namespace NalUnit

theorem nal_zero_byte_fields :
    NalUnitHeader.forbiddenBit 0 = false ∧ NalUnitHeader.nri 0 = 0 ∧
    NalUnitHeader.unitType 0 = 0 := by
  decide

/-- C11 (as amended). Whenever the requested byte count, `size` when `includingHeader` is
true and `size + 1` when it is false, does not exceed the buffer's `max_size()`, the
constructor `NalUnit(size, includingHeader)` returns a buffer of exactly that many bytes;
every byte is zero; and when the buffer is not empty `forbiddenBit()` is false and `nri()`
and `unitType()` are 0. -/
theorem ofSize_zero_buffer (max_size size : Nat) (includingHeader : Bool)
    (hmax : max_size < 2 ^ 64)
    (hfit : size + (if includingHeader then 0 else 1) ≤ max_size) :
    ∃ u, ofSize max_size size includingHeader = some u ∧
      u.length = (if includingHeader then size else size + 1) ∧
      (∀ x ∈ u, x = 0) ∧
      (u ≠ [] → forbiddenBit u = some false ∧ nri u = some 0 ∧ unitType u = some 0) := by
  have hcount : toSizeT (size + (if includingHeader then 0 else 1))
      = size + (if includingHeader then 0 else 1) :=
    Nat.mod_eq_of_lt (Nat.lt_of_le_of_lt hfit hmax)
  refine ⟨List.replicate (size + (if includingHeader then 0 else 1)) 0, ?_, ?_, ?_, ?_⟩
  · simp only [ofSize, hcount, if_pos hfit]
  · cases includingHeader <;> simp
  · intro x hx
    exact List.eq_of_mem_replicate hx
  · intro hne
    cases hk : size + (if includingHeader then 0 else 1) with
    | zero => rw [hk] at hne; exact absurd rfl hne
    | succ k =>
      obtain ⟨hf, hn, ht⟩ := nal_zero_byte_fields
      simp [List.replicate_succ, forbiddenBit, nri, unitType, header, hf, hn, ht]

theorem ofSize_zero_buffer_witness :
    2 ^ 63 - 1 < 2 ^ 64 ∧ 5 + (if false then 0 else 1) ≤ 2 ^ 63 - 1 ∧
    ∃ u, ofSize (2 ^ 63 - 1) 5 false = some u ∧
      u.length = (if false then 5 else 5 + 1) ∧
      (∀ x ∈ u, x = 0) ∧
      (u ≠ [] → forbiddenBit u = some false ∧ nri u = some 0 ∧ unitType u = some 0) :=
  ⟨by decide, by decide, ofSize_zero_buffer (2 ^ 63 - 1) 5 false (by decide) (by decide)⟩

/-- C11 (counterexample). With `size` the largest `size_t` value and `includingHeader` false the
sum `size + 1` wraps to 0: the constructor returns the empty buffer, not one of `size + 1`
bytes. -/
theorem ofSize_wraps_at_size_max :
    ofSize (2 ^ 63 - 1) (2 ^ 64 - 1) false = some [] ∧
    ([] : NalUnit).length ≠ (2 ^ 64 - 1) + 1 := by
  decide

/-- C12. Each of `payload()`, `setPayload()` and the six header accessors of `NalUnit` fails
its assertion exactly when `size() == 0`; on every unit of size at least 1 each of them
completes, the byte it reads or writes being byte 0 of the buffer. -/
theorem assertion_iff_empty (u : NalUnit) (p : binary) (f : Bool) (n t : Nat) :
    (payload u = none ↔ u.length = 0) ∧
    (setPayload u p = none ↔ u.length = 0) ∧
    (forbiddenBit u = none ↔ u.length = 0) ∧
    (nri u = none ↔ u.length = 0) ∧
    (unitType u = none ↔ u.length = 0) ∧
    (setForbiddenBit u f = none ↔ u.length = 0) ∧
    (setNRI u n = none ↔ u.length = 0) ∧
    (setUnitType u t = none ↔ u.length = 0) ∧
    (1 ≤ u.length → ∃ first, u.get? 0 = some first ∧ header u = some first) := by
  cases u with
  | nil =>
    simp [payload, setPayload, forbiddenBit, nri, unitType, setForbiddenBit, setNRI,
      setUnitType, header]
  | cons first rest =>
    simp [payload, setPayload, forbiddenBit, nri, unitType, setForbiddenBit, setNRI,
      setUnitType, header, storeHeader]

theorem assertion_iff_empty_witness :
    payload [] = none ∧ setPayload [] [1] = none ∧ forbiddenBit [] = none ∧
    setNRI [] 3 = none ∧ payload [0x65] ≠ none ∧ setUnitType [0x65] 7 ≠ none :=
  ⟨(assertion_iff_empty [] [1] true 3 7).1.mpr rfl,
    (assertion_iff_empty [] [1] true 3 7).2.1.mpr rfl,
    (assertion_iff_empty [] [1] true 3 7).2.2.1.mpr rfl,
    (assertion_iff_empty [] [1] true 3 7).2.2.2.2.2.2.1.mpr rfl,
    fun h => absurd ((assertion_iff_empty [0x65] [] true 3 7).1.mp h) (by decide),
    fun h => absurd ((assertion_iff_empty [0x65] [] true 3 7).2.2.2.2.2.2.2.1.mp h)
      (by decide)⟩

/-- C18. For every unit `u` of size at least 1, each of `u.setForbiddenBit`, `u.setNRI` and
`u.setUnitType` completes and leaves `size()` and `payload()` as they were, and the new
byte 0 is the result of the `NalUnitHeader` setter of the same name on the old byte 0. -/
theorem header_setters_touch_byte0 (u : NalUnit) (hu : 1 ≤ u.length) (f : Bool) (n t : Nat) :
    ∃ first, u.get? 0 = some first ∧
      (∃ v, setForbiddenBit u f = some v ∧ v.length = u.length ∧ payload v = payload u ∧
        v.get? 0 = some (NalUnitHeader.setForbiddenBit first f)) ∧
      (∃ v, setNRI u n = some v ∧ v.length = u.length ∧ payload v = payload u ∧
        v.get? 0 = some (NalUnitHeader.setNRI first n)) ∧
      (∃ v, setUnitType u t = some v ∧ v.length = u.length ∧ payload v = payload u ∧
        v.get? 0 = some (NalUnitHeader.setUnitType first t)) := by
  cases u with
  | nil => simp at hu
  | cons first rest =>
    refine ⟨first, by simp, ?_, ?_, ?_⟩
    · exact ⟨NalUnitHeader.setForbiddenBit first f :: rest,
        by simp [setForbiddenBit, header, storeHeader], by simp, by simp [payload], by simp⟩
    · exact ⟨NalUnitHeader.setNRI first n :: rest,
        by simp [setNRI, header, storeHeader], by simp, by simp [payload], by simp⟩
    · exact ⟨NalUnitHeader.setUnitType first t :: rest,
        by simp [setUnitType, header, storeHeader], by simp, by simp [payload], by simp⟩

theorem header_setters_touch_byte0_witness :
    1 ≤ ([0x65, 1, 2] : NalUnit).length ∧
    ∃ first, ([0x65, 1, 2] : NalUnit).get? 0 = some first ∧
      (∃ v, setForbiddenBit [0x65, 1, 2] true = some v ∧
        v.length = ([0x65, 1, 2] : NalUnit).length ∧ payload v = payload [0x65, 1, 2] ∧
        v.get? 0 = some (NalUnitHeader.setForbiddenBit first true)) ∧
      (∃ v, setNRI [0x65, 1, 2] 1 = some v ∧
        v.length = ([0x65, 1, 2] : NalUnit).length ∧ payload v = payload [0x65, 1, 2] ∧
        v.get? 0 = some (NalUnitHeader.setNRI first 1)) ∧
      (∃ v, setUnitType [0x65, 1, 2] 7 = some v ∧
        v.length = ([0x65, 1, 2] : NalUnit).length ∧ payload v = payload [0x65, 1, 2] ∧
        v.get? 0 = some (NalUnitHeader.setUnitType first 7)) :=
  ⟨by decide, header_setters_touch_byte0 [0x65, 1, 2] (by decide) true 1 7⟩

end NalUnit

/-! ## NalUnitFragmentA: payload, unit type, fragment type -/

namespace NalUnitFragmentA

/-- C13. For every fragment `g` of size at least 2, `g.payload()` returns the bytes
`[2, end)` of `g`, and for every byte sequence `p` the call `g.setPayload(p)` completes
with a fragment whose `payload()` is exactly `p`, whose bytes 0 and 1 are those of `g` and
whose size is `2 + length(p)`; on a fragment of size below 2 both operations fail their
assertion. -/
theorem fragment_payload_slice (g : NalUnitFragmentA) (p : binary) :
    (2 ≤ g.length →
      payload g = some (g.drop 2) ∧
      ∃ v, setPayload g p = some v ∧ payload v = some p ∧
        v.get? 0 = g.get? 0 ∧ v.get? 1 = g.get? 1 ∧
        (g.get? 0).isSome = true ∧ (g.get? 1).isSome = true ∧
        v.length = 2 + p.length) ∧
    (g.length < 2 → payload g = none ∧ setPayload g p = none) := by
  match g with
  | [] => simp [payload, setPayload]
  | [_] => simp [payload, setPayload]
  | b0 :: b1 :: rest =>
    refine ⟨fun _ => ⟨by simp [payload], b0 :: b1 :: p, ?_, ?_, ?_, ?_, ?_, ?_, ?_⟩,
      fun h => by simp only [List.length_cons] at h; omega⟩
    · simp [setPayload, binary.erase, binary.insert]
    · simp [payload]
    · simp
    · simp
    · simp
    · simp
    · simp only [List.length_cons]; omega

theorem fragment_payload_slice_witness :
    (payload [0x7C, 0x85, 1, 2, 3] = some [1, 2, 3] ∧
      ∃ v, setPayload [0x7C, 0x85, 1, 2, 3] [9, 8] = some v ∧ payload v = some [9, 8] ∧
        v.get? 0 = some 0x7C ∧ v.get? 1 = some 0x85 ∧ v.length = 2 + 2) ∧
    (payload [0x7C] = none ∧ setPayload [0x7C] [9, 8] = none) :=
  ⟨by
      obtain ⟨hp, v, hv, hpv, h0, h1, _, _, hlen⟩ :=
        (fragment_payload_slice [0x7C, 0x85, 1, 2, 3] [9, 8]).1 (by decide)
      exact ⟨hp, v, hv, hpv, h0, h1, hlen⟩,
    (fragment_payload_slice [0x7C] [9, 8]).2 (by decide)⟩

theorem fu_type_store_bytes : ∀ b, b < 256 →
    NalUnitFragmentHeader.unitType b = b % 2 ^ 5 ∧
    ∀ m, m < 32 →
      NalUnitFragmentHeader.unitType (NalUnitFragmentHeader.setUnitType b m) = m ∧
      NalUnitFragmentHeader.setUnitType b m / 2 ^ 5 = b / 2 ^ 5 ∧
      NalUnitFragmentHeader.isStart (NalUnitFragmentHeader.setUnitType b m)
        = NalUnitFragmentHeader.isStart b ∧
      NalUnitFragmentHeader.isEnd (NalUnitFragmentHeader.setUnitType b m)
        = NalUnitFragmentHeader.isEnd b ∧
      NalUnitFragmentHeader.reservedBit6 (NalUnitFragmentHeader.setUnitType b m)
        = NalUnitFragmentHeader.reservedBit6 b := by
  decide

/-- C19. For every fragment `g` of size at least 2 whose elements are bytes: `g.unitType()`
is bits 4-0 of byte 1; `g.setUnitType(t)` completes, afterwards `unitType()` is `t mod 32`,
byte 0 is unchanged, bits 7-5 of byte 1 and with them `isStart()`, `isEnd()` and
`reservedBit6()` are unchanged, the bytes from 2 on and the size are unchanged, and so are
`type()` and `payload()`; the inherited `setForbiddenBit` and `setNRI` complete, store
the `NalUnitHeader` setter's result in byte 0 and leave every other byte as it was. -/
theorem fragment_unit_type_in_fu_header (g : NalUnitFragmentA) (hg : 2 ≤ g.length)
    (hwf : binary.wellFormed g) (t : Nat) (f : Bool) (n : Nat) :
    ∃ b0 b1, g.get? 0 = some b0 ∧ g.get? 1 = some b1 ∧
      unitType g = some (b1 % 2 ^ 5) ∧
      (∃ v c1, setUnitType g t = some v ∧ unitType v = some (t % 32) ∧
        v.get? 0 = some b0 ∧ v.get? 1 = some c1 ∧ c1 / 2 ^ 5 = b1 / 2 ^ 5 ∧
        NalUnitFragmentHeader.isStart c1 = NalUnitFragmentHeader.isStart b1 ∧
        NalUnitFragmentHeader.isEnd c1 = NalUnitFragmentHeader.isEnd b1 ∧
        NalUnitFragmentHeader.reservedBit6 c1 = NalUnitFragmentHeader.reservedBit6 b1 ∧
        v.drop 2 = g.drop 2 ∧ v.length = g.length ∧
        type v = type g ∧ payload v = payload g) ∧
      (∃ v, NalUnit.setForbiddenBit g f = some v ∧
        v.get? 0 = some (NalUnitHeader.setForbiddenBit b0 f) ∧ v.drop 1 = g.drop 1) ∧
      (∃ v, NalUnit.setNRI g n = some v ∧
        v.get? 0 = some (NalUnitHeader.setNRI b0 n) ∧ v.drop 1 = g.drop 1) := by
  match g, hg, hwf with
  | b0 :: b1 :: rest, _, hwf =>
    have hb1 : b1 < 256 := hwf b1 (by simp)
    obtain ⟨hread, hstore⟩ := fu_type_store_bytes b1 hb1
    obtain ⟨hget, hdiv, hs, he, hr⟩ := hstore (t % 32) (Nat.mod_lt t (by decide))
    rw [← NalUnitFragmentHeader.fu_setUnitType_mod] at hget hdiv hs he hr
    refine ⟨b0, b1, by simp, by simp, by simp [unitType, fragmentHeader, hread], ?_, ?_, ?_⟩
    · refine ⟨b0 :: NalUnitFragmentHeader.setUnitType b1 t :: rest,
        NalUnitFragmentHeader.setUnitType b1 t, ?_, ?_, by simp, by simp, hdiv, hs, he, hr,
        by simp, by simp, ?_, by simp [payload]⟩
      · simp [setUnitType, fragmentHeader, storeFragmentHeader]
      · simp [unitType, fragmentHeader, hget]
      · simp [type, fragmentHeader, hs, he]
    · exact ⟨NalUnitHeader.setForbiddenBit b0 f :: b1 :: rest,
        by simp [NalUnit.setForbiddenBit, NalUnit.header, NalUnit.storeHeader], by simp,
        by simp⟩
    · exact ⟨NalUnitHeader.setNRI b0 n :: b1 :: rest,
        by simp [NalUnit.setNRI, NalUnit.header, NalUnit.storeHeader], by simp, by simp⟩

theorem fragment_unit_type_in_fu_header_witness :
    2 ≤ ([0x7C, 0x85, 1, 2] : NalUnitFragmentA).length ∧
    binary.wellFormed [0x7C, 0x85, 1, 2] ∧
    ∃ b0 b1, ([0x7C, 0x85, 1, 2] : NalUnitFragmentA).get? 0 = some b0 ∧
      ([0x7C, 0x85, 1, 2] : NalUnitFragmentA).get? 1 = some b1 ∧
      unitType [0x7C, 0x85, 1, 2] = some (b1 % 2 ^ 5) ∧
      (∃ v c1, setUnitType [0x7C, 0x85, 1, 2] 0x27 = some v ∧
        unitType v = some (0x27 % 32) ∧
        v.get? 0 = some b0 ∧ v.get? 1 = some c1 ∧ c1 / 2 ^ 5 = b1 / 2 ^ 5 ∧
        NalUnitFragmentHeader.isStart c1 = NalUnitFragmentHeader.isStart b1 ∧
        NalUnitFragmentHeader.isEnd c1 = NalUnitFragmentHeader.isEnd b1 ∧
        NalUnitFragmentHeader.reservedBit6 c1 = NalUnitFragmentHeader.reservedBit6 b1 ∧
        v.drop 2 = ([0x7C, 0x85, 1, 2] : NalUnitFragmentA).drop 2 ∧
        v.length = ([0x7C, 0x85, 1, 2] : NalUnitFragmentA).length ∧
        type v = type [0x7C, 0x85, 1, 2] ∧ payload v = payload [0x7C, 0x85, 1, 2]) ∧
      (∃ v, NalUnit.setForbiddenBit [0x7C, 0x85, 1, 2] true = some v ∧
        v.get? 0 = some (NalUnitHeader.setForbiddenBit b0 true) ∧
        v.drop 1 = ([0x7C, 0x85, 1, 2] : NalUnitFragmentA).drop 1) ∧
      (∃ v, NalUnit.setNRI [0x7C, 0x85, 1, 2] 1 = some v ∧
        v.get? 0 = some (NalUnitHeader.setNRI b0 1) ∧
        v.drop 1 = ([0x7C, 0x85, 1, 2] : NalUnitFragmentA).drop 1) :=
  ⟨by decide, by unfold binary.wellFormed; decide,
    fragment_unit_type_in_fu_header [0x7C, 0x85, 1, 2] (by decide)
      (by unfold binary.wellFormed; decide) 0x27 true 1⟩

/-- C20. For every fragment `g` of size at least 2, `g.type()` completes and is Start exactly
when `isStart()` of the FU header (byte 1) is true, End exactly when `isStart()` is false
and `isEnd()` is true, Middle exactly when both are false; any fragment `k` with the same
byte 1 has the same type, and so has any fragment `k` whose FU header agrees with that of
`g` on `isStart()` and `isEnd()`, whatever its `reservedBit6()` and `unitType()`. -/
theorem fragment_type_decoding (g k : NalUnitFragmentA) (hg : 2 ≤ g.length) :
    ∃ b1, g.get? 1 = some b1 ∧
      (type g = some FragmentType.Start ↔ NalUnitFragmentHeader.isStart b1 = true) ∧
      (type g = some FragmentType.End ↔
        NalUnitFragmentHeader.isStart b1 = false ∧ NalUnitFragmentHeader.isEnd b1 = true) ∧
      (type g = some FragmentType.Middle ↔
        NalUnitFragmentHeader.isStart b1 = false ∧ NalUnitFragmentHeader.isEnd b1 = false) ∧
      (k.get? 1 = g.get? 1 → type k = type g) ∧
      (∀ c1, k.get? 1 = some c1 →
        NalUnitFragmentHeader.isStart c1 = NalUnitFragmentHeader.isStart b1 →
        NalUnitFragmentHeader.isEnd c1 = NalUnitFragmentHeader.isEnd b1 →
        type k = type g) := by
  match g, hg with
  | b0 :: b1 :: rest, _ =>
    refine ⟨b1, by simp, ?_, ?_, ?_, ?_, ?_⟩
    · cases hs : NalUnitFragmentHeader.isStart b1 <;>
        cases he : NalUnitFragmentHeader.isEnd b1 <;> simp [type, fragmentHeader, hs, he]
    · cases hs : NalUnitFragmentHeader.isStart b1 <;>
        cases he : NalUnitFragmentHeader.isEnd b1 <;> simp [type, fragmentHeader, hs, he]
    · cases hs : NalUnitFragmentHeader.isStart b1 <;>
        cases he : NalUnitFragmentHeader.isEnd b1 <;> simp [type, fragmentHeader, hs, he]
    · intro hk
      unfold type fragmentHeader
      rw [Nat.zero_add, hk]
    · intro c1 hk hs he
      have hk1 : k.get? (0 + 1) = some c1 := by rw [Nat.zero_add]; exact hk
      simp only [type, fragmentHeader, hk1, Option.map_some', hs, he]
      simp

theorem fragment_type_decoding_witness :
    2 ≤ ([0x7C, 0x45, 3] : NalUnitFragmentA).length ∧
    ∃ b1, ([0x7C, 0x45, 3] : NalUnitFragmentA).get? 1 = some b1 ∧
      (type [0x7C, 0x45, 3] = some FragmentType.Start ↔
        NalUnitFragmentHeader.isStart b1 = true) ∧
      (type [0x7C, 0x45, 3] = some FragmentType.End ↔
        NalUnitFragmentHeader.isStart b1 = false ∧ NalUnitFragmentHeader.isEnd b1 = true) ∧
      (type [0x7C, 0x45, 3] = some FragmentType.Middle ↔
        NalUnitFragmentHeader.isStart b1 = false ∧ NalUnitFragmentHeader.isEnd b1 = false) ∧
      (([0x00, 0x45] : NalUnitFragmentA).get? 1 = ([0x7C, 0x45, 3] : NalUnitFragmentA).get? 1 →
        type [0x00, 0x45] = type [0x7C, 0x45, 3]) ∧
      (∀ c1, ([0x00, 0x45] : NalUnitFragmentA).get? 1 = some c1 →
        NalUnitFragmentHeader.isStart c1 = NalUnitFragmentHeader.isStart b1 →
        NalUnitFragmentHeader.isEnd c1 = NalUnitFragmentHeader.isEnd b1 →
        type [0x00, 0x45] = type [0x7C, 0x45, 3]) :=
  ⟨by decide, fragment_type_decoding [0x7C, 0x45, 3] [0x00, 0x45] (by decide)⟩

end NalUnitFragmentA

/-! ## Fragmentation: slices, sizes, tags -/

namespace NalUnitFragmentA

theorem slices_flatten (l : binary) (k n : Nat) :
    ((List.range n).map (slice l k)).flatten = l.take (n * k) := by
  induction n with
  | zero => simp
  | succ n ih =>
    rw [List.range_succ, List.map_append, List.flatten_append, ih, Nat.succ_mul,
      List.take_add]
    simp [slice]

theorem ceil_mul_ge (len k : Nat) (hk : 0 < k) : len ≤ (len + k - 1) / k * k := by
  have h1 := Nat.div_add_mod (len + k - 1) k
  have h2 := Nat.mod_lt (len + k - 1) hk
  rw [Nat.mul_comm] at h1
  omega

theorem ceil_pred_mul_lt (len k : Nat) (hlen : 0 < len) :
    ((len + k - 1) / k - 1) * k < len := by
  rcases Nat.eq_zero_or_pos k with hk | hk
  · subst hk; simpa using hlen
  · have h1 := Nat.div_add_mod (len + k - 1) k
    rw [Nat.mul_comm] at h1
    have h3 : ((len + k - 1) / k - 1) * k = (len + k - 1) / k * k - k := by
      rw [Nat.sub_mul, Nat.one_mul]
    omega

theorem payload_mk (type : FragmentType) (f : Bool) (nri unitType : Nat) (data : binary) :
    payload (mk type f nri unitType data) = some data := by
  simp [payload, mk]

theorem slice_length (l : binary) (k i : Nat) :
    (slice l k i).length = min k (l.length - i * k) := by
  simp [slice]

/-- On a unit with a non-empty payload and a `maximumFragmentSize` above 2 the fragmentation
returns one fragment per slice. -/
theorem fragmentsFrom_eq (first : Nat) (p : binary) (m : Nat) (hne : p ≠ []) (hm : 2 < m) :
    fragmentsFrom (first :: p) m =
      some ((List.range ((p.length + (m - 2) - 1) / (m - 2))).map fun i =>
        mk (sliceType i ((p.length + (m - 2) - 1) / (m - 2)))
          (NalUnitHeader.forbiddenBit first) (NalUnitHeader.nri first)
          (NalUnitHeader.unitType first) (slice p (m - 2) i)) := by
  have hm2 : ¬ m ≤ 2 := Nat.not_le.mpr hm
  simp [fragmentsFrom, NalUnit.payload, NalUnit.forbiddenBit, NalUnit.nri, NalUnit.unitType,
    NalUnit.header, hne, hm2]

theorem payload_eq_cons (nalu : NalUnit) (p : binary) (hp : NalUnit.payload nalu = some p) :
    ∃ first, nalu = first :: p := by
  cases nalu with
  | nil => simp [NalUnit.payload] at hp
  | cons first rest =>
    refine ⟨first, ?_⟩
    simp [NalUnit.payload] at hp
    rw [hp]

/-- C14. For every source unit with a non-empty payload and every `maximumFragmentSize`
above 2, `fragmentsFrom` returns fragments whose `payload()` results, concatenated in
order, are exactly the payload of the source unit. -/
theorem fragments_lossless (nalu : NalUnit) (p : binary) (m : Nat)
    (hp : NalUnit.payload nalu = some p) (hne : p ≠ []) (hm : 2 < m) :
    ∃ (frags : List NalUnitFragmentA) (ps : List binary), fragmentsFrom nalu m = some frags ∧
      frags.map payload = ps.map some ∧ ps.flatten = p := by
  obtain ⟨first, rfl⟩ := payload_eq_cons nalu p hp
  refine ⟨_, (List.range ((p.length + (m - 2) - 1) / (m - 2))).map (slice p (m - 2)),
    fragmentsFrom_eq first p m hne hm, ?_, ?_⟩
  · simp [List.map_map, Function.comp_def, payload_mk]
  · rw [slices_flatten]
    exact List.take_of_length_le (ceil_mul_ge p.length (m - 2) (by omega))

theorem fragments_lossless_witness :
    NalUnit.payload [0x65, 1, 2, 3, 4, 5] = some [1, 2, 3, 4, 5] ∧
    ([1, 2, 3, 4, 5] : binary) ≠ [] ∧ 2 < 4 ∧
    ∃ (frags : List NalUnitFragmentA) (ps : List binary), fragmentsFrom [0x65, 1, 2, 3, 4, 5] 4 = some frags ∧
      frags.map payload = ps.map some ∧ ps.flatten = [1, 2, 3, 4, 5] :=
  ⟨by decide, by decide, by decide,
    fragments_lossless [0x65, 1, 2, 3, 4, 5] [1, 2, 3, 4, 5] 4 (by decide) (by decide)
      (by decide)⟩

/-- C15. For every source unit with a non-empty payload and every `maximumFragmentSize`
above 2, every fragment returned by `fragmentsFrom` has a payload of at most
`maximumFragmentSize - 2` bytes, and the number of fragments is
`ceil(len(payload) / (maximumFragmentSize - 2))`: it is the quotient rounded up
`(len + k - 1) / k` for `k = maximumFragmentSize - 2`, the one `n` with
`(n - 1) * k < len ≤ n * k`. A 2500-byte payload with `maximumFragmentSize = 1100` gives
3 fragments with payload lengths 1098, 1098, 304. -/
theorem fragments_size_and_count (nalu : NalUnit) (p : binary) (m : Nat)
    (hp : NalUnit.payload nalu = some p) (hne : p ≠ []) (hm : 2 < m) :
    ∃ frags, fragmentsFrom nalu m = some frags ∧
      (∀ g ∈ frags, ∃ q, payload g = some q ∧ q.length ≤ m - 2) ∧
      frags.length = (p.length + (m - 2) - 1) / (m - 2) ∧
      p.length ≤ frags.length * (m - 2) ∧ (frags.length - 1) * (m - 2) < p.length ∧
      (p.length = 2500 → m = 1100 →
        frags.length = 3 ∧
        frags.map (fun g => (payload g).map List.length)
          = [some 1098, some 1098, some 304]) := by
  obtain ⟨first, rfl⟩ := payload_eq_cons nalu p hp
  have hlen : 0 < p.length := List.length_pos.mpr hne
  refine ⟨_, fragmentsFrom_eq first p m hne hm, ?_, ?_, ?_, ?_, ?_⟩
  · intro g hg
    obtain ⟨i, _, rfl⟩ := List.mem_map.mp hg
    refine ⟨slice p (m - 2) i, payload_mk _ _ _ _ _, ?_⟩
    rw [slice_length]
    exact Nat.min_le_left _ _
  · simp
  · simpa using ceil_mul_ge p.length (m - 2) (by omega)
  · simpa using ceil_pred_mul_lt p.length (m - 2) hlen
  · intro h2500 h1100
    subst h1100
    simp only [List.length_map, List.length_range, List.map_map, Function.comp_def,
      payload_mk, Option.map_some', slice_length, h2500]
    decide

theorem fragments_size_and_count_witness :
    NalUnit.payload (0x65 :: List.replicate 2500 7) = some (List.replicate 2500 7) ∧
    List.replicate 2500 7 ≠ [] ∧ 2 < 1100 ∧
    ∃ frags, fragmentsFrom (0x65 :: List.replicate 2500 7) 1100 = some frags ∧
      (∀ g ∈ frags, ∃ q, payload g = some q ∧ q.length ≤ 1100 - 2) ∧
      frags.length = ((List.replicate 2500 7).length + (1100 - 2) - 1) / (1100 - 2) ∧
      (List.replicate 2500 7).length ≤ frags.length * (1100 - 2) ∧
      (frags.length - 1) * (1100 - 2) < (List.replicate 2500 7).length ∧
      ((List.replicate 2500 7).length = 2500 → 1100 = 1100 →
        frags.length = 3 ∧
        frags.map (fun g => (payload g).map List.length)
          = [some 1098, some 1098, some 304]) :=
  ⟨by simp [NalUnit.payload], by simp, by decide,
    fragments_size_and_count (0x65 :: List.replicate 2500 7) (List.replicate 2500 7) 1100
      (by simp [NalUnit.payload]) (by simp) (by decide)⟩

/-- The fragments of the unit `65 01 02 03` for `maximumFragmentSize = 3`, with the types
`type()` reads on them. -/
theorem fragments_of_small_unit :
    fragmentsFrom [0x65, 1, 2, 3] 3
      = some [[0x7C, 0x85, 1], [0x7C, 0x05, 2], [0x7C, 0x25, 3]] ∧
    type [0x7C, 0x85, 1] = some FragmentType.Start ∧
    type [0x7C, 0x05, 2] = some FragmentType.Middle ∧
    type [0x7C, 0x25, 3] = some FragmentType.End := by
  decide

end NalUnitFragmentA

/-! ## The batch driver -/

namespace NalUnits

theorem generateFragmentsLoop_blocks (m : Nat) (units : List NalUnit) :
    ∀ (blocks : List (List binary)) (result : List binary),
      List.Forall₂ (fun u b =>
        (if u.length ≤ m then some [u] else NalUnitFragmentA.fragmentsFrom u m) = some b)
        units blocks →
      generateFragmentsLoop m units result = some (result ++ blocks.flatten) := by
  induction units with
  | nil =>
    intro blocks result h
    cases h
    simp [generateFragmentsLoop]
  | cons u rest ih =>
    intro blocks result h
    cases h with
    | cons hb hrest =>
      rename_i b bs
      by_cases hu : u.length ≤ m
      · rw [if_pos hu] at hb
        have hb1 : b = [u] := (Option.some.inj hb).symm
        subst hb1
        simp [generateFragmentsLoop, hu, ih bs (result ++ [u]) hrest]
      · rw [if_neg hu] at hb
        simp [generateFragmentsLoop, hu, hb, ih bs (result ++ b) hrest]

theorem unit_block_exists (m : Nat) (hm : 2 < m) (u : NalUnit) :
    ∃ b, (if u.length ≤ m then some [u] else NalUnitFragmentA.fragmentsFrom u m) = some b := by
  by_cases hu : u.length ≤ m
  · exact ⟨[u], by rw [if_pos hu]⟩
  · rw [if_neg hu]
    match u, hu with
    | [], hu => simp at hu
    | first :: p, hu =>
      have hne : p ≠ [] := by
        intro h
        subst h
        simp at hu
        omega
      exact ⟨_, NalUnitFragmentA.fragmentsFrom_eq first p m hne hm⟩

/-- C17. The result of `generateFragments(m)` is the in-order concatenation of one block per
unit: whenever `blocks` lists, unit by unit, the unit itself for a unit with `size() ≤ m`
and the fragments of `fragmentsFrom(unit, m)` for any other unit, the result is `blocks`
flattened. Such blocks exist for every `m` above 2. A collection whose units all have
`size() ≤ m` is returned unchanged. -/
theorem generateFragments_in_order (units : NalUnits) (m : Nat) :
    (∀ blocks : List (List binary),
      List.Forall₂ (fun u b =>
        (if u.length ≤ m then some [u] else NalUnitFragmentA.fragmentsFrom u m) = some b)
        units blocks →
      generateFragments units m = some blocks.flatten) ∧
    (2 < m → ∃ blocks : List (List binary),
      List.Forall₂ (fun u b =>
        (if u.length ≤ m then some [u] else NalUnitFragmentA.fragmentsFrom u m) = some b)
        units blocks) ∧
    ((∀ u ∈ units, u.length ≤ m) → generateFragments units m = some units) := by
  refine ⟨?_, ?_, ?_⟩
  · intro blocks h
    simpa [generateFragments] using generateFragmentsLoop_blocks m units blocks [] h
  · intro hm
    induction units with
    | nil => exact ⟨[], List.Forall₂.nil⟩
    | cons u rest ih =>
      obtain ⟨bs, hbs⟩ := ih
      obtain ⟨b, hb⟩ := unit_block_exists m hm u
      exact ⟨b :: bs, List.Forall₂.cons hb hbs⟩
  · intro hall
    have hblocks : ∀ us : List NalUnit, (∀ u ∈ us, u.length ≤ m) →
        List.Forall₂ (fun u b =>
          (if u.length ≤ m then some [u] else NalUnitFragmentA.fragmentsFrom u m) = some b)
          us (us.map fun u => [u]) := by
      intro us
      induction us with
      | nil => intro _; exact List.Forall₂.nil
      | cons u rest ih =>
        intro h
        refine List.Forall₂.cons ?_ (ih fun v hv => h v (List.mem_cons_of_mem u hv))
        rw [if_pos (h u (List.mem_cons_self u rest))]
    have hflat : ∀ us : List NalUnit, (us.map fun u => [u]).flatten = us := by
      intro us
      induction us with
      | nil => rfl
      | cons u rest ih => simp [ih]
    have h := generateFragmentsLoop_blocks m units _ [] (hblocks units hall)
    simpa [generateFragments, hflat] using h

theorem generateFragments_in_order_witness :
    generateFragments [List.replicate 500 0] 1100 = some [List.replicate 500 0] ∧
    generateFragments [[0x41, 9], [0x65, 1, 2, 3], [0x41, 8]] 3
      = some [[0x41, 9], [0x7C, 0x85, 1], [0x7C, 0x05, 2], [0x7C, 0x25, 3], [0x41, 8]] :=
  ⟨(generateFragments_in_order [List.replicate 500 0] 1100).2.2 (by simp),
    (generateFragments_in_order [[0x41, 9], [0x65, 1, 2, 3], [0x41, 8]] 3).1
      [[[0x41, 9]], [[0x7C, 0x85, 1], [0x7C, 0x05, 2], [0x7C, 0x25, 3]], [[0x41, 8]]]
      (List.Forall₂.cons (by decide) (List.Forall₂.cons (by decide)
        (List.Forall₂.cons (by decide) List.Forall₂.nil)))⟩

end NalUnits
